import Mathlib

set_option maxRecDepth 100000

/-!
Verification of `ios/FriendMap/import_icons.py` from alexxtronic/OurSpotApp.

The script copies every `.png` file of a source directory into an Xcode
asset-catalog structure: for each candidate it creates a directory
`<base>.imageset` under a destination root, copies the file into it and
writes a `Contents.json` descriptor produced by `json.dump(..., indent=2)`.
A candidate whose base name (per `os.path.splitext`) is `gaming` is skipped.
At the end the script prints `Processed <n> icons.` where `n` is the length
of the pre-filter candidate list.

The embedding below models the source directory as a listing of named
entries (regular files with byte contents, or subdirectories), and models
environment-caused filesystem failures (permission denied, disk full)
during the copy/write of a candidate by a boolean oracle `fault`; an entry
that is a subdirectory makes `shutil.copy` raise deterministically.  The
run is a pure function from the optional source listing (none = the source
directory does not exist, so `os.listdir` raises) and the fault oracle to
the resulting destination state.
-/

namespace ImportIcons

mutual

/-- JSON values, restricted to the constructors the script serializes
(strings, non-negative integers, arrays, objects with ordered fields).
Mutual inductives instead of nested `List` so that structural recursion
over them reduces definitionally. -/
inductive Json where
  | str (s : String)
  | num (n : Nat)
  | arr (xs : JsonList)
  | obj (fs : JsonFields)

inductive JsonList where
  | nil
  | cons (x : Json) (xs : JsonList)

inductive JsonFields where
  | nil
  | cons (k : String) (v : Json) (fs : JsonFields)

end

end ImportIcons

namespace ImportIcons

/-- Lowercase hexadecimal digit, as produced by Python's `'%04x'` format. -/
def hexDigit (d : Nat) : Char :=
  if d < 10 then Char.ofNat (48 + d) else Char.ofNat (87 + d)

/-- Four lowercase hexadecimal digits of `n < 0x10000`. -/
def hex4 (n : Nat) : List Char :=
  [hexDigit (n / 4096 % 16), hexDigit (n / 256 % 16),
   hexDigit (n / 16 % 16), hexDigit (n % 16)]

/-- The `\uXXXX` escape (with a surrogate pair above `0xFFFF`) that
Python's `json` encoder emits for a non-ASCII or control character when
`ensure_ascii` is true (the default used by the script's `json.dump`). -/
def uEscape (n : Nat) : List Char :=
  if n < 65536 then
    '\\' :: 'u' :: hex4 n
  else
    let m := n - 65536
    ('\\' :: 'u' :: hex4 (55296 + m / 1024)) ++ ('\\' :: 'u' :: hex4 (56320 + m % 1024))

/-- Escaping of one character per Python's `py_encode_basestring_ascii`:
backslash, double quote, the named control escapes, every other character
outside `0x20`..`0x7E` as `\uXXXX`, the rest verbatim. -/
def escChar (c : Char) : List Char :=
  if c = '\\' then ['\\', '\\']
  else if c = '"' then ['\\', '"']
  else if c.toNat = 8 then ['\\', 'b']
  else if c.toNat = 9 then ['\\', 't']
  else if c.toNat = 10 then ['\\', 'n']
  else if c.toNat = 12 then ['\\', 'f']
  else if c.toNat = 13 then ['\\', 'r']
  else if 32 ≤ c.toNat ∧ c.toNat ≤ 126 then [c]
  else uEscape c.toNat

/-- Escape every character of a string. -/
def escChars : List Char → List Char
  | [] => []
  | c :: cs => escChar c ++ escChars cs

/-- Python's JSON string encoder (`ensure_ascii=True`): a double-quoted,
fully escaped rendering of `s`. -/
def encStr (s : String) : String :=
  String.mk ('"' :: escChars s.data ++ ['"'])

/-- A run of `n` spaces. -/
def spaces (n : Nat) : String :=
  String.mk (List.replicate n ' ')

/-- Separator between a key and a value: Python's default `key_separator`. -/
def colonSep : String := ": "

mutual

/-- Serialization of a JSON value exactly as Python's
`json.dump(value, file, indent=2)` writes it, `ind` being the current
indentation width (the item separator defaults to `","` when an indent is
given, the key separator to `": "`; containers put each element on its own
line indented by `ind + 2`; empty containers render compactly). -/
def dumpJson (ind : Nat) : Json → String
  | Json.str s => encStr s
  | Json.num n => Nat.repr n
  | Json.arr JsonList.nil => "[]"
  | Json.arr (JsonList.cons x xs) =>
      "[\n" ++ spaces (ind + 2) ++ dumpJson (ind + 2) x ++ dumpArrTail (ind + 2) xs
        ++ "\n" ++ spaces ind ++ "]"
  | Json.obj JsonFields.nil => "\x7b\x7d"
  | Json.obj (JsonFields.cons k v fs) =>
      "\x7b\n" ++ spaces (ind + 2) ++ encStr k ++ colonSep ++ dumpJson (ind + 2) v
        ++ dumpObjTail (ind + 2) fs ++ "\n" ++ spaces ind ++ "\x7d"

/-- Remaining array elements, each preceded by `",\n"` and indentation. -/
def dumpArrTail (ind : Nat) : JsonList → String
  | JsonList.nil => ""
  | JsonList.cons x xs =>
      ",\n" ++ spaces ind ++ dumpJson ind x ++ dumpArrTail ind xs

/-- Remaining object fields, each preceded by `",\n"` and indentation. -/
def dumpObjTail (ind : Nat) : JsonFields → String
  | JsonFields.nil => ""
  | JsonFields.cons k v fs =>
      ",\n" ++ spaces ind ++ encStr k ++ colonSep ++ dumpJson ind v ++ dumpObjTail ind fs

end

/-- String constant: the filename extension the script filters on. -/
def pngExt : String := ".png"

/-- String constant: the excluded base name. -/
def gamingName : String := "gaming"

/-- String constant: suffix of every destination container name. -/
def imagesetSuffix : String := ".imageset"

/-- Python's `str.endswith`: is `suffix` a suffix of `s`? -/
def pyEndsWith (s suffix : String) : Bool :=
  List.isSuffixOf suffix.data s.data

/-- The first component of `os.path.splitext(f)` for a bare filename (no
path separators): `genericpath._splitext` takes everything before the last
dot, except that a dot with only dots before it in the basename starts no
extension, so names such as `.png` keep their leading-dot part whole. -/
def splitextBase (f : String) : String :=
  match List.findIdx? (fun c => c = '.') f.data.reverse with
  | none => f
  | some r =>
      let i := f.data.length - 1 - r
      if (f.data.take i).any (fun c => c ≠ '.') then String.mk (f.data.take i) else f

/-- String constant: the `images` key. -/
def imagesKey : String := "images"

/-- String constant: the `info` key. -/
def infoKey : String := "info"

/-- String constant: the `filename` key. -/
def filenameKey : String := "filename"

/-- String constant: the `idiom` key. -/
def idiomKey : String := "idiom"

/-- String constant: the `scale` key. -/
def scaleKey : String := "scale"

/-- String constant: the `author` key. -/
def authorKey : String := "author"

/-- String constant: the `version` key. -/
def versionKey : String := "version"

/-- String constant: the `universal` idiom value. -/
def universalVal : String := "universal"

/-- String constant: the `1x` scale value. -/
def scale1xVal : String := "1x"

/-- String constant: the `xcode` author value. -/
def xcodeVal : String := "xcode"

/-- The document built by the script's `get_1x_contents_json(filename)`:
one universal 1x image entry naming `filename`, plus the fixed `info`
block. -/
def get_1x_contents_json (filename : String) : Json :=
  Json.obj
    (JsonFields.cons imagesKey
      (Json.arr
        (JsonList.cons
          (Json.obj
            (JsonFields.cons filenameKey (Json.str filename)
              (JsonFields.cons idiomKey (Json.str universalVal)
                (JsonFields.cons scaleKey (Json.str scale1xVal) JsonFields.nil))))
          JsonList.nil))
      (JsonFields.cons infoKey
        (Json.obj
          (JsonFields.cons authorKey (Json.str xcodeVal)
            (JsonFields.cons versionKey (Json.num 1) JsonFields.nil)))
        JsonFields.nil))

/-- First field of an object's field list with the given key. -/
def findField (k : String) : JsonFields → Option Json
  | JsonFields.nil => none
  | JsonFields.cons k' v fs => if k' = k then some v else findField k fs

/-- The `images[0].filename` string of a descriptor document, when present. -/
def jsonImagesFilename (d : Json) : Option String :=
  match d with
  | Json.obj fs =>
      match findField imagesKey fs with
      | some (Json.arr (JsonList.cons (Json.obj fs0) _)) =>
          match findField filenameKey fs0 with
          | some (Json.str s) => some s
          | _ => none
      | _ => none
  | _ => none

/-- A directory entry of the source directory: a regular file with its
byte contents, or a subdirectory. -/
inductive FSEntry where
  | file (bytes : List Nat)
  | dir
deriving DecidableEq

/-- The source directory: its listing in the order `os.listdir` returns
it, each name paired with what the name refers to. -/
structure SourceDir where
  listing : List (String × FSEntry)
deriving DecidableEq

/-- The entry a name refers to (first occurrence in the listing). -/
def lookupEntry (s : SourceDir) (f : String) : Option FSEntry :=
  (s.listing.find? (fun e => e.fst == f)).map Prod.snd

/-- The script's candidate list
`files = [f for f in os.listdir(source_dir) if f.endswith(".png")]`. -/
def candidateFiles (s : SourceDir) : List String :=
  (s.listing.map Prod.fst).filter (fun f => pyEndsWith f pngExt)

/-- A destination container produced for one processed candidate: the
`<base>.imageset` directory name, the copied file (name and bytes) and the
serialized `Contents.json` descriptor it holds. -/
structure Container where
  dirName : String
  fileName : String
  fileBytes : List Nat
  contentsJson : String
deriving DecidableEq

/-- The container the loop body produces for candidate `f`: directory
`<splitext-base>.imageset`, a byte-for-byte copy of the source entry, and
`json.dump(get_1x_contents_json(f), ..., indent=2)` as `Contents.json`. -/
def procContainer (s : SourceDir) (f : String) : Container :=
  { dirName := splitextBase f ++ imagesetSuffix
    fileName := f
    fileBytes :=
      match lookupEntry s f with
      | some (FSEntry.file bs) => bs
      | _ => []
    contentsJson := dumpJson 0 (get_1x_contents_json f) }

/-- Whether processing candidate `f` succeeds: its entry must be a regular
file (`shutil.copy` of a directory raises) and the environment must not
make the copy or the descriptor write fail (`fault f`). -/
def copyOk (s : SourceDir) (fault : String → Bool) (f : String) : Bool :=
  match lookupEntry s f with
  | some (FSEntry.file _) => !(fault f)
  | _ => false

/-- Outcome of the processing loop: ran to completion, or aborted by an
unhandled exception; either way, the containers fully written so far. -/
inductive LoopOut where
  | done (cs : List Container)
  | aborted (cs : List Container)
deriving DecidableEq

/-- The script's `for f in files:` loop.  A candidate whose splitext base
is `gaming` is skipped before any filesystem operation; otherwise the
container directory is created, the file copied and the descriptor
written, and the first raising operation aborts the whole loop with the
containers completed so far. -/
def runLoop (s : SourceDir) (fault : String → Bool) : List String → List Container → LoopOut
  | [], acc => LoopOut.done acc
  | f :: rest, acc =>
      if splitextBase f = gamingName then
        runLoop s fault rest acc
      else
        match lookupEntry s f with
        | some (FSEntry.file _) =>
            if fault f then LoopOut.aborted acc
            else runLoop s fault rest (acc ++ [procContainer s f])
        | _ => LoopOut.aborted acc

/-- Final state of a run: whether the destination root was ensured to
exist, the destination containers on disk, and the summary line printed
(`none` when the run aborted before reaching the final `print`). -/
structure RunResult where
  destRootCreated : Bool
  containers : List Container
  summary : Option String
deriving DecidableEq

/-- String constant: prefix of the summary line. -/
def summaryPre : String := "Processed "

/-- String constant: suffix of the summary line. -/
def summaryPost : String := " icons."

/-- The summary line `print(f"Processed {len(files)} icons.")`. -/
def summaryMsg (n : Nat) : String :=
  summaryPre ++ Nat.repr n ++ summaryPost

/-- The whole script run.  `os.makedirs(dest_root, exist_ok=True)` always
runs first; if the source directory does not exist (`src = none`),
`os.listdir` raises and nothing else happens; otherwise the candidate list
is built, the loop runs and, on completion, the summary line reports the
length of the pre-filter candidate list. -/
def importIcons (src : Option SourceDir) (fault : String → Bool) : RunResult :=
  match src with
  | none => { destRootCreated := true, containers := [], summary := none }
  | some s =>
      match runLoop s fault (candidateFiles s) [] with
      | LoopOut.done cs =>
          { destRootCreated := true, containers := cs
            summary := some (summaryMsg (candidateFiles s).length) }
      | LoopOut.aborted cs =>
          { destRootCreated := true, containers := cs, summary := none }

/-- Whether a candidate survives the `gaming` exclusion. -/
def keptFile (f : String) : Bool :=
  decide (splitextBase f ≠ gamingName)

/-- The candidates the loop actually processes: the candidate list minus
the `gaming` exclusion. -/
def processedFiles (s : SourceDir) : List String :=
  (candidateFiles s).filter keptFile

/-- The fault oracle of a run in which the environment causes no
filesystem failure. -/
def noFault : String → Bool := fun _ => false

/-- The containers of either loop outcome. -/
def containersOf : LoopOut → List Container
  | LoopOut.done cs => cs
  | LoopOut.aborted cs => cs

/-- Reference form of the loop used by the proofs: iterate directly over
the already-filtered candidate list. -/
def refLoop (s : SourceDir) (fault : String → Bool) : List String → List Container → LoopOut
  | [], acc => LoopOut.done acc
  | f :: rest, acc =>
      if copyOk s fault f then refLoop s fault rest (acc ++ [procContainer s f])
      else LoopOut.aborted acc

/-- Stated from the specification for the refinement claim about the
descriptor format: the document whose top-level key `images` is an array
with exactly one object having `filename` equal to the given filename,
`idiom` equal to `universal` and `scale` equal to `1x`, and whose
top-level key `info` has `author` equal to `xcode` and `version` equal
to `1`. -/
def specDescriptorDocument (f : String) : Json :=
  Json.obj
    (JsonFields.cons imagesKey
      (Json.arr
        (JsonList.cons
          (Json.obj
            (JsonFields.cons filenameKey (Json.str f)
              (JsonFields.cons idiomKey (Json.str universalVal)
                (JsonFields.cons scaleKey (Json.str scale1xVal) JsonFields.nil))))
          JsonList.nil))
      (JsonFields.cons infoKey
        (Json.obj
          (JsonFields.cons authorKey (Json.str xcodeVal)
            (JsonFields.cons versionKey (Json.num 1) JsonFields.nil)))
        JsonFields.nil))

/-- String constant: the name of the excluded file. -/
def gamingPng : String := "gaming.png"

/-- String constant: the container name the excluded file would get. -/
def gamingImageset : String := "gaming.imageset"

theorem keptFile_eq_false {f : String} (h : splitextBase f = gamingName) :
    keptFile f = false := by
  simp [keptFile, h]

theorem keptFile_eq_true {f : String} (h : splitextBase f ≠ gamingName) :
    keptFile f = true := by
  simp [keptFile, h]

theorem splitextBase_ne_of_keptFile {f : String} (h : keptFile f = true) :
    splitextBase f ≠ gamingName := by
  simpa [keptFile] using h

theorem string_append_cancel_right {a b c : String} (h : a ++ c = b ++ c) : a = b := by
  apply String.ext
  have hd : a.data ++ c.data = b.data ++ c.data := by
    rw [← String.data_append, ← String.data_append, h]
  exact List.append_cancel_right hd

/-- The loop over the raw candidate list equals the reference loop over
the candidate list with the `gaming` exclusion already applied. -/
theorem runLoop_eq_refLoop (s : SourceDir) (fault : String → Bool) :
    ∀ (fs : List String) (acc : List Container),
      runLoop s fault fs acc = refLoop s fault (fs.filter keptFile) acc := by
  intro fs
  induction fs with
  | nil => intro acc; rfl
  | cons f rest ih =>
    intro acc
    by_cases hg : splitextBase f = gamingName
    · rw [List.filter_cons_of_neg (by simp [keptFile_eq_false hg])]
      show runLoop s fault (f :: rest) acc = _
      rw [runLoop, if_pos hg]
      exact ih acc
    · rw [List.filter_cons_of_pos (keptFile_eq_true hg)]
      rw [runLoop, if_neg hg, refLoop]
      cases hl : lookupEntry s f with
      | none => simp [copyOk, hl]
      | some e =>
        cases e with
        | dir => simp [copyOk, hl]
        | file bs =>
          cases hf : fault f with
          | true => simp [copyOk, hl, hf]
          | false => simp [copyOk, hl, hf]; exact ih _

/-- The reference loop completes exactly when every remaining candidate
processes successfully, and then appends one container per candidate in
order. -/
theorem refLoop_done_iff (s : SourceDir) (fault : String → Bool) :
    ∀ (l : List String) (acc res : List Container),
      refLoop s fault l acc = LoopOut.done res ↔
        (∀ g ∈ l, copyOk s fault g = true) ∧ res = acc ++ l.map (procContainer s) := by
  intro l
  induction l with
  | nil =>
    intro acc res
    show LoopOut.done acc = LoopOut.done res ↔ _
    constructor
    · intro h
      injection h with h1
      exact ⟨fun g hg => absurd hg (List.not_mem_nil g), by simp [← h1]⟩
    · rintro ⟨-, h2⟩
      simp only [List.map_nil, List.append_nil] at h2
      rw [h2]
  | cons f rest ih =>
    intro acc res
    rw [refLoop]
    cases hc : copyOk s fault f with
    | false =>
      rw [if_neg (by simp)]
      constructor
      · intro h; exact absurd h (by intro hh; exact LoopOut.noConfusion hh)
      · rintro ⟨h1, -⟩
        have := h1 f (List.mem_cons_self f rest)
        rw [hc] at this
        exact absurd this (by simp)
    | true =>
      rw [if_pos rfl, ih]
      constructor
      · rintro ⟨h1, h2⟩
        refine ⟨?_, by simpa using h2⟩
        intro g hg
        rcases List.mem_cons.mp hg with rfl | hg2
        · exact hc
        · exact h1 g hg2
      · rintro ⟨h1, h2⟩
        exact ⟨fun g hg => h1 g (List.mem_cons_of_mem f hg), by simpa using h2⟩

/-- If every candidate before `f` processes successfully and `f` fails,
the reference loop aborts at `f` with exactly the containers of the
earlier candidates. -/
theorem refLoop_aborted_of (s : SourceDir) (fault : String → Bool) :
    ∀ (pre : List String) (f : String) (post : List String) (acc : List Container),
      (∀ g ∈ pre, copyOk s fault g = true) → copyOk s fault f = false →
      refLoop s fault (pre ++ f :: post) acc
        = LoopOut.aborted (acc ++ pre.map (procContainer s)) := by
  intro pre
  induction pre with
  | nil => intro f post acc _ hf; simp [refLoop, hf]
  | cons p pre' ih =>
    intro f post acc hpre hf
    have hp : copyOk s fault p = true := hpre p (List.mem_cons_self p pre')
    rw [List.cons_append, refLoop, if_pos hp,
        ih f post _ (fun g hg => hpre g (List.mem_cons_of_mem p hg)) hf]
    simp

/-- Whatever the outcome, the containers of the reference loop are the
accumulator followed by one container per candidate of some prefix of the
candidate list. -/
theorem refLoop_shape (s : SourceDir) (fault : String → Bool) :
    ∀ (l : List String) (acc : List Container),
      ∃ pfx, pfx <+: l ∧
        containersOf (refLoop s fault l acc) = acc ++ pfx.map (procContainer s) := by
  intro l
  induction l with
  | nil => intro acc; exact ⟨[], List.prefix_refl [], by simp [refLoop, containersOf]⟩
  | cons f rest ih =>
    intro acc
    rw [refLoop]
    cases hc : copyOk s fault f with
    | false =>
      exact ⟨[], ⟨f :: rest, rfl⟩, by simp [containersOf]⟩
    | true =>
      obtain ⟨pfx, hpfx, heq⟩ := ih (acc ++ [procContainer s f])
      exact ⟨f :: pfx, by simpa using hpfx, by simpa using heq⟩

theorem importIcons_some_containers (s : SourceDir) (fault : String → Bool) :
    (importIcons (some s) fault).containers
      = containersOf (refLoop s fault (processedFiles s) []) := by
  show (match runLoop s fault (candidateFiles s) [] with
        | LoopOut.done cs =>
            ({ destRootCreated := true, containers := cs
               summary := some (summaryMsg (candidateFiles s).length) } : RunResult)
        | LoopOut.aborted cs =>
            { destRootCreated := true, containers := cs, summary := none }).containers = _
  rw [runLoop_eq_refLoop]
  show _ = containersOf (refLoop s fault ((candidateFiles s).filter keptFile) [])
  cases refLoop s fault ((candidateFiles s).filter keptFile) [] with
  | done cs => rfl
  | aborted cs => rfl

theorem importIcons_summary_isSome (s : SourceDir) (fault : String → Bool) :
    (importIcons (some s) fault).summary.isSome = true ↔
      ∀ g ∈ processedFiles s, copyOk s fault g = true := by
  show (match runLoop s fault (candidateFiles s) [] with
        | LoopOut.done cs =>
            ({ destRootCreated := true, containers := cs
               summary := some (summaryMsg (candidateFiles s).length) } : RunResult)
        | LoopOut.aborted cs =>
            { destRootCreated := true, containers := cs, summary := none }).summary.isSome
      = true ↔ _
  rw [runLoop_eq_refLoop]
  cases h : refLoop s fault ((candidateFiles s).filter keptFile) [] with
  | done cs =>
    simp only [Option.isSome_some, true_iff]
    exact ((refLoop_done_iff s fault _ [] cs).mp h).1
  | aborted cs =>
    simp only [Option.isSome_none, Bool.false_eq_true, false_iff]
    intro hall
    have : refLoop s fault (processedFiles s) [] = LoopOut.done ((processedFiles s).map (procContainer s)) :=
      (refLoop_done_iff s fault _ [] _).mpr ⟨hall, by simp⟩
    rw [show processedFiles s = (candidateFiles s).filter keptFile from rfl, h] at this
    exact LoopOut.noConfusion this

theorem importIcons_containers_of_done (s : SourceDir) (fault : String → Bool)
    (h : (importIcons (some s) fault).summary.isSome = true) :
    (importIcons (some s) fault).containers = (processedFiles s).map (procContainer s) := by
  have hall := (importIcons_summary_isSome s fault).mp h
  have : refLoop s fault (processedFiles s) [] = LoopOut.done ((processedFiles s).map (procContainer s)) :=
    (refLoop_done_iff s fault _ [] _).mpr ⟨hall, by simp⟩
  rw [importIcons_some_containers, this]
  rfl

theorem importIcons_summary_msg (s : SourceDir) (fault : String → Bool) (msg : String)
    (h : (importIcons (some s) fault).summary = some msg) :
    msg = summaryMsg (candidateFiles s).length := by
  revert h
  show (match runLoop s fault (candidateFiles s) [] with
        | LoopOut.done cs =>
            ({ destRootCreated := true, containers := cs
               summary := some (summaryMsg (candidateFiles s).length) } : RunResult)
        | LoopOut.aborted cs =>
            { destRootCreated := true, containers := cs, summary := none }).summary
      = some msg → _
  cases runLoop s fault (candidateFiles s) [] with
  | done cs => intro h; exact (Option.some_injective _ h).symm
  | aborted cs => intro h; exact Option.noConfusion h

theorem mem_containers_shape (s : SourceDir) (fault : String → Bool) (c : Container)
    (h : c ∈ (importIcons (some s) fault).containers) :
    ∃ f, f ∈ processedFiles s ∧ c = procContainer s f := by
  rw [importIcons_some_containers] at h
  obtain ⟨pfx, hpfx, heq⟩ := refLoop_shape s fault (processedFiles s) []
  rw [heq] at h
  simp only [List.nil_append] at h
  obtain ⟨f, hf, rfl⟩ := List.mem_map.mp h
  exact ⟨f, hpfx.subset hf, rfl⟩

theorem procContainer_fileName (s : SourceDir) (f : String) :
    (procContainer s f).fileName = f := rfl

theorem procContainer_dirName (s : SourceDir) (f : String) :
    (procContainer s f).dirName = splitextBase f ++ imagesetSuffix := rfl

theorem procContainer_contents (s : SourceDir) (f : String) :
    (procContainer s f).contentsJson = dumpJson 0 (get_1x_contents_json f) := rfl

theorem procContainer_fileBytes {s : SourceDir} {f : String} {bs : List Nat}
    (h : lookupEntry s f = some (FSEntry.file bs)) :
    (procContainer s f).fileBytes = bs := by
  show (match lookupEntry s f with
        | some (FSEntry.file bs) => bs
        | _ => []) = bs
  rw [h]

theorem copyOk_of_file {s : SourceDir} {fault : String → Bool} {f : String} {bs : List Nat}
    (h : lookupEntry s f = some (FSEntry.file bs)) (hf : fault f = false) :
    copyOk s fault f = true := by
  show (match lookupEntry s f with
        | some (FSEntry.file _) => !(fault f)
        | _ => false) = true
  rw [h, hf]
  rfl

theorem copyOk_of_dir {s : SourceDir} {fault : String → Bool} {f : String}
    (h : lookupEntry s f = some FSEntry.dir) :
    copyOk s fault f = false := by
  show (match lookupEntry s f with
        | some (FSEntry.file _) => !(fault f)
        | _ => false) = false
  rw [h]

theorem find?_name_mem (f : String) :
    ∀ (l : List (String × FSEntry)) (en : String × FSEntry),
      l.find? (fun e => e.fst == f) = some en → f ∈ l.map Prod.fst := by
  intro l
  induction l with
  | nil => intro en h; exact Option.noConfusion h
  | cons p rest ih =>
    intro en h
    by_cases hp : p.fst = f
    · exact List.mem_map.mpr ⟨p, List.mem_cons_self p rest, hp⟩
    · rw [List.find?_cons_of_neg _ (by simp [hp])] at h
      exact List.mem_cons_of_mem _ (ih en h)

theorem mem_names_of_lookup {s : SourceDir} {f : String} {e : FSEntry}
    (h : lookupEntry s f = some e) : f ∈ s.listing.map Prod.fst := by
  unfold lookupEntry at h
  obtain ⟨en, hfind, -⟩ := Option.map_eq_some'.mp h
  exact find?_name_mem f s.listing en hfind

theorem mem_candidateFiles {s : SourceDir} {f : String} {e : FSEntry}
    (h : lookupEntry s f = some e) (hp : pyEndsWith f pngExt = true) :
    f ∈ candidateFiles s :=
  List.mem_filter.mpr ⟨mem_names_of_lookup h, hp⟩

theorem mem_processedFiles {s : SourceDir} {f : String} {e : FSEntry}
    (h : lookupEntry s f = some e) (hp : pyEndsWith f pngExt = true)
    (hg : splitextBase f ≠ gamingName) :
    f ∈ processedFiles s :=
  List.mem_filter.mpr ⟨mem_candidateFiles h hp, keptFile_eq_true hg⟩

theorem splitextBase_gamingPng : splitextBase gamingPng = gamingName := by decide

theorem gamingImageset_eq : gamingImageset = gamingName ++ imagesetSuffix := by decide

theorem fileName_ne_gamingPng {f : String} (h : splitextBase f ≠ gamingName) :
    f ≠ gamingPng := by
  intro hf
  rw [hf] at h
  exact h splitextBase_gamingPng

theorem dirName_ne_gamingImageset {f : String} (h : splitextBase f ≠ gamingName) :
    splitextBase f ++ imagesetSuffix ≠ gamingImageset := by
  intro hf
  rw [gamingImageset_eq] at hf
  exact h (string_append_cancel_right hf)

/-- The same source directory with every entry named `gaming.png`
removed, used to state that the exclusion leaves all other candidates
unaffected. -/
def removeGaming (s : SourceDir) : SourceDir :=
  { listing := s.listing.filter (fun e => !(e.fst == gamingPng)) }

theorem find?_filter_ne (l : List (String × FSEntry)) (f : String) (h : f ≠ gamingPng) :
    (l.filter (fun e => !(e.fst == gamingPng))).find? (fun e => e.fst == f)
      = l.find? (fun e => e.fst == f) := by
  induction l with
  | nil => rfl
  | cons e rest ih =>
    by_cases hg : e.fst = gamingPng
    · have h2 : (e.fst == f) = false := by
        simp only [beq_eq_false_iff_ne, ne_eq, hg]
        exact fun hh => h hh.symm
      rw [List.filter_cons_of_neg (by simp [hg]), List.find?_cons_of_neg _ (by simp [h2]), ih]
    · rw [List.filter_cons_of_pos (by simp [hg])]
      by_cases he : e.fst = f
      · rw [List.find?_cons_of_pos _ (by simp [he]), List.find?_cons_of_pos _ (by simp [he])]
      · rw [List.find?_cons_of_neg _ (by simp [he]), List.find?_cons_of_neg _ (by simp [he]), ih]

theorem lookupEntry_removeGaming (s : SourceDir) (f : String) (h : f ≠ gamingPng) :
    lookupEntry (removeGaming s) f = lookupEntry s f := by
  unfold lookupEntry removeGaming
  rw [find?_filter_ne s.listing f h]

theorem procContainer_removeGaming (s : SourceDir) (f : String) (h : f ≠ gamingPng) :
    procContainer (removeGaming s) f = procContainer s f := by
  unfold procContainer
  rw [lookupEntry_removeGaming s f h]

theorem copyOk_removeGaming (s : SourceDir) (fault : String → Bool) (f : String)
    (h : f ≠ gamingPng) :
    copyOk (removeGaming s) fault f = copyOk s fault f := by
  unfold copyOk
  rw [lookupEntry_removeGaming s f h]

theorem candidateFiles_removeGaming (s : SourceDir) :
    candidateFiles (removeGaming s)
      = (candidateFiles s).filter (fun f => !(f == gamingPng)) := by
  unfold candidateFiles removeGaming
  rw [show (fun e : String × FSEntry => !(e.fst == gamingPng))
        = ((fun f => !(f == gamingPng)) ∘ Prod.fst) from rfl,
      ← List.filter_map, List.filter_filter, List.filter_filter]
  apply List.filter_congr
  intro f _
  exact Bool.and_comm _ _

theorem processedFiles_removeGaming (s : SourceDir) :
    processedFiles (removeGaming s) = processedFiles s := by
  unfold processedFiles
  rw [candidateFiles_removeGaming, List.filter_filter]
  apply List.filter_congr
  intro f _
  cases hk : keptFile f with
  | false => rfl
  | true =>
    have hne : f ≠ gamingPng := fileName_ne_gamingPng (splitextBase_ne_of_keptFile hk)
    simp [hne]

theorem refLoop_congr (s₁ s₂ : SourceDir) (fault : String → Bool) :
    ∀ (l : List String) (acc : List Container),
      (∀ f ∈ l, copyOk s₁ fault f = copyOk s₂ fault f
        ∧ procContainer s₁ f = procContainer s₂ f) →
      refLoop s₁ fault l acc = refLoop s₂ fault l acc := by
  intro l
  induction l with
  | nil => intro acc _; rfl
  | cons f rest ih =>
    intro acc hall
    obtain ⟨hok, hpc⟩ := hall f (List.mem_cons_self f rest)
    rw [refLoop, refLoop, ← hok, ← hpc]
    cases copyOk s₁ fault f with
    | false => rfl
    | true =>
      simp only [if_pos rfl]
      exact ih _ (fun g hg => hall g (List.mem_cons_of_mem f hg))

theorem importIcons_aborted (s : SourceDir) (fault : String → Bool) (cs : List Container)
    (h : refLoop s fault (processedFiles s) [] = LoopOut.aborted cs) :
    importIcons (some s) fault
      = { destRootCreated := true, containers := cs, summary := none } := by
  show (match runLoop s fault (candidateFiles s) [] with
        | LoopOut.done cs2 =>
            ({ destRootCreated := true, containers := cs2
               summary := some (summaryMsg (candidateFiles s).length) } : RunResult)
        | LoopOut.aborted cs2 =>
            { destRootCreated := true, containers := cs2, summary := none }) = _
  rw [runLoop_eq_refLoop]
  rw [show (candidateFiles s).filter keptFile = processedFiles s from rfl, h]

theorem map_fileName_procContainer (src : SourceDir) :
    ∀ l : List String, (l.map (procContainer src)).map Container.fileName = l := by
  intro l
  induction l with
  | nil => rfl
  | cons a l ih => rw [List.map_cons, List.map_cons, procContainer_fileName, ih]

/-! Concrete fixtures used by witnesses and counterexamples. -/

/-- String constant: a plain candidate name. -/
def sportsPng : String := "sports.png"

/-- String constant: a second plain candidate name. -/
def musicPng : String := "music.png"

/-- String constant: the edge-case name consisting only of the extension. -/
def dotPng : String := ".png"

/-- String constant: a name whose splitext base is `.png`. -/
def dotPngPng : String := ".png.png"

/-- String constant: the container name of the `.png` edge case. -/
def dotPngImageset : String := ".png.imageset"

/-- String constant: a subdirectory name ending in `.png`. -/
def subPng : String := "sub.png"

/-- Fixture: one ordinary candidate file. -/
def srcSports : SourceDir := { listing := [(sportsPng, FSEntry.file [1, 2, 3])] }

/-- Fixture: two ordinary candidate files. -/
def srcTwo : SourceDir :=
  { listing := [(sportsPng, FSEntry.file [1]), (musicPng, FSEntry.file [2])] }

/-- Fixture: an ordinary candidate plus the excluded `gaming.png`. -/
def srcWithGaming : SourceDir :=
  { listing := [(sportsPng, FSEntry.file [1]), (gamingPng, FSEntry.file [5])] }

/-- Fixture: two distinct candidates sharing the splitext base `.png`. -/
def srcClash : SourceDir :=
  { listing := [(dotPng, FSEntry.file [1]), (dotPngPng, FSEntry.file [2])] }

/-- Fixture: a subdirectory named `gaming.png`. -/
def srcGamingDir : SourceDir := { listing := [(gamingPng, FSEntry.dir)] }

/-- Fixture: the `.png` edge-case entry. -/
def src9 : SourceDir := { listing := [(dotPng, FSEntry.file [7])] }

/-- Fixture: an ordinary candidate plus a subdirectory ending in `.png`. -/
def srcSubdir : SourceDir :=
  { listing := [(sportsPng, FSEntry.file [1]), (subPng, FSEntry.dir)] }

/-- Fault oracle failing exactly the copy/write of `music.png`. -/
def faultMusic : String → Bool := fun f => f == musicPng

/-! The claims. -/

/-- C1: for every processed candidate filename `f`, the descriptor written
as `Contents.json` in `f`'s container is exactly the JSON serialization,
with 2-space indentation, of the document whose top-level key `images` is
an array with exactly one object having `filename` equal to `f`, `idiom`
equal to `universal` and `scale` equal to `1x`, and whose top-level key
`info` has `author` equal to `xcode` and `version` equal to `1`. -/
theorem c1_descriptor_format (src : SourceDir) (fault : String → Bool) (c : Container)
    (h : c ∈ (importIcons (some src) fault).containers) :
    c.contentsJson = dumpJson 0 (specDescriptorDocument c.fileName) := by
  obtain ⟨f, -, rfl⟩ := mem_containers_shape src fault c h
  rfl

/-- Witness for C1 at a concrete run. -/
theorem c1_descriptor_format_witness :
    procContainer srcSports sportsPng ∈ (importIcons (some srcSports) noFault).containers
      ∧ (procContainer srcSports sportsPng).contentsJson
          = dumpJson 0 (specDescriptorDocument (procContainer srcSports sportsPng).fileName) :=
  ⟨by decide, c1_descriptor_format srcSports noFault _ (by decide)⟩

/-- C2: every source entry whose name ends with `.png`, whose entry is a
regular file and whose splitext base is not the excluded name has, after a
completed run, a container `<base>.imageset` holding a byte-for-byte copy
of the file under its exact name and a `Contents.json` whose
`images[0].filename` equals the original filename. -/
theorem c2_candidate_containers (src : SourceDir) (fault : String → Bool)
    (f : String) (bs : List Nat)
    (hdone : (importIcons (some src) fault).summary.isSome = true)
    (hl : lookupEntry src f = some (FSEntry.file bs))
    (hp : pyEndsWith f pngExt = true)
    (hg : splitextBase f ≠ gamingName) :
    ∃ c ∈ (importIcons (some src) fault).containers,
      c.dirName = splitextBase f ++ imagesetSuffix
        ∧ c.fileName = f
        ∧ c.fileBytes = bs
        ∧ c.contentsJson = dumpJson 0 (get_1x_contents_json f)
        ∧ jsonImagesFilename (get_1x_contents_json f) = some f := by
  have hmem : f ∈ processedFiles src := mem_processedFiles hl hp hg
  rw [importIcons_containers_of_done src fault hdone]
  exact ⟨procContainer src f, List.mem_map.mpr ⟨f, hmem, rfl⟩,
    rfl, rfl, procContainer_fileBytes hl, rfl, rfl⟩

/-- Witness for C2 at a concrete run. -/
theorem c2_candidate_containers_witness :
    ((importIcons (some srcSports) noFault).summary.isSome = true
        ∧ lookupEntry srcSports sportsPng = some (FSEntry.file [1, 2, 3])
        ∧ pyEndsWith sportsPng pngExt = true
        ∧ splitextBase sportsPng ≠ gamingName)
      ∧ ∃ c ∈ (importIcons (some srcSports) noFault).containers,
          c.dirName = splitextBase sportsPng ++ imagesetSuffix
            ∧ c.fileName = sportsPng
            ∧ c.fileBytes = [1, 2, 3]
            ∧ c.contentsJson = dumpJson 0 (get_1x_contents_json sportsPng)
            ∧ jsonImagesFilename (get_1x_contents_json sportsPng) = some sportsPng :=
  ⟨⟨by decide, by decide, by decide, by decide⟩,
    c2_candidate_containers srcSports noFault sportsPng [1, 2, 3]
      (by decide) (by decide) (by decide) (by decide)⟩

/-- C3: when the source directory contains `gaming.png`, no container
named `gaming.imageset` is created and no copy of `gaming.png` is made;
all other candidates are processed exactly as they would be with the
`gaming.png` entries removed from the listing (same containers, same
completion status). -/
theorem c3_gaming_excluded (src : SourceDir) (fault : String → Bool) (e : FSEntry)
    (_hmem : (gamingPng, e) ∈ src.listing) :
    (∀ c ∈ (importIcons (some src) fault).containers,
        c.dirName ≠ gamingImageset ∧ c.fileName ≠ gamingPng)
      ∧ (importIcons (some src) fault).containers
          = (importIcons (some (removeGaming src)) fault).containers
      ∧ ((importIcons (some src) fault).summary.isSome = true
          ↔ (importIcons (some (removeGaming src)) fault).summary.isSome = true) := by
  refine ⟨?_, ?_, ?_⟩
  · intro c hc
    obtain ⟨f, hf, rfl⟩ := mem_containers_shape src fault c hc
    have hbase := splitextBase_ne_of_keptFile (List.mem_filter.mp hf).2
    exact ⟨dirName_ne_gamingImageset hbase, fileName_ne_gamingPng hbase⟩
  · rw [importIcons_some_containers, importIcons_some_containers,
        processedFiles_removeGaming]
    congr 1
    apply refLoop_congr
    intro f hf
    have hne : f ≠ gamingPng :=
      fileName_ne_gamingPng (splitextBase_ne_of_keptFile (List.mem_filter.mp hf).2)
    exact ⟨(copyOk_removeGaming src fault f hne).symm,
      (procContainer_removeGaming src f hne).symm⟩
  · rw [importIcons_summary_isSome, importIcons_summary_isSome,
        processedFiles_removeGaming]
    constructor
    · intro h g hg
      rw [copyOk_removeGaming src fault g
        (fileName_ne_gamingPng (splitextBase_ne_of_keptFile (List.mem_filter.mp hg).2))]
      exact h g hg
    · intro h g hg
      rw [← copyOk_removeGaming src fault g
        (fileName_ne_gamingPng (splitextBase_ne_of_keptFile (List.mem_filter.mp hg).2))]
      exact h g hg

/-- Witness for C3 at a concrete run containing `gaming.png`. -/
theorem c3_gaming_excluded_witness :
    ((gamingPng, FSEntry.file [5]) ∈ srcWithGaming.listing)
      ∧ ((∀ c ∈ (importIcons (some srcWithGaming) noFault).containers,
            c.dirName ≠ gamingImageset ∧ c.fileName ≠ gamingPng)
          ∧ (importIcons (some srcWithGaming) noFault).containers
              = (importIcons (some (removeGaming srcWithGaming)) noFault).containers
          ∧ ((importIcons (some srcWithGaming) noFault).summary.isSome = true
              ↔ (importIcons (some (removeGaming srcWithGaming)) noFault).summary.isSome
                  = true)) :=
  ⟨by decide, c3_gaming_excluded srcWithGaming noFault (FSEntry.file [5]) (by decide)⟩

/-- C4: the final summary message always reports the length of the
pre-filter candidate list (every listing entry ending in `.png`, the
excluded `gaming` included), not the number of candidates actually
processed: on a concrete source holding `sports.png` and `gaming.png` the
summary says 2 while only 1 container is produced. -/
theorem c4_summary_prefilter_count :
    (∀ (src : SourceDir) (fault : String → Bool) (msg : String),
        (importIcons (some src) fault).summary = some msg
          → msg = summaryMsg (candidateFiles src).length)
      ∧ (importIcons (some srcWithGaming) noFault).summary = some (summaryMsg 2)
      ∧ (importIcons (some srcWithGaming) noFault).containers.length = 1 := by
  refine ⟨fun src fault msg h => importIcons_summary_msg src fault msg h, by decide, by decide⟩

/-- Witness for C4 at a concrete run. -/
theorem c4_summary_prefilter_count_witness :
    summaryMsg 2 = summaryMsg (candidateFiles srcWithGaming).length :=
  c4_summary_prefilter_count.1 srcWithGaming noFault (summaryMsg 2) (by decide)

/-- C5: when the source directory does not exist, the run aborts while
listing it: the destination root has been ensured to exist (step 1, before
the listing), and no container is created, no file copied, no descriptor
written, no summary printed. -/
theorem c5_missing_source_aborts (fault : String → Bool) :
    importIcons none fault
      = { destRootCreated := true, containers := [], summary := none } := rfl

/-- C6: the descriptor bytes are a deterministic function of the filename
alone: any two containers from any two runs (different listings, different
fault environments) whose filenames agree hold byte-identical
`Contents.json` serializations, so a second run over an unchanged source
overwrites each descriptor with identical bytes. -/
theorem c6_descriptor_deterministic (s₁ s₂ : SourceDir) (f₁ f₂ : String → Bool)
    (c₁ c₂ : Container)
    (h₁ : c₁ ∈ (importIcons (some s₁) f₁).containers)
    (h₂ : c₂ ∈ (importIcons (some s₂) f₂).containers)
    (hname : c₁.fileName = c₂.fileName) :
    c₁.contentsJson = c₂.contentsJson := by
  obtain ⟨g₁, -, rfl⟩ := mem_containers_shape s₁ f₁ c₁ h₁
  obtain ⟨g₂, -, rfl⟩ := mem_containers_shape s₂ f₂ c₂ h₂
  have hg : g₁ = g₂ := hname
  rw [procContainer_contents, procContainer_contents, hg]

/-- Witness for C6: the same filename in two different listings (even with
different bytes) yields identical descriptor serializations. -/
theorem c6_descriptor_deterministic_witness :
    procContainer srcSports sportsPng ∈ (importIcons (some srcSports) noFault).containers
      ∧ procContainer srcTwo sportsPng ∈ (importIcons (some srcTwo) noFault).containers
      ∧ (procContainer srcSports sportsPng).contentsJson
          = (procContainer srcTwo sportsPng).contentsJson :=
  ⟨by decide, by decide,
    c6_descriptor_deterministic srcSports srcTwo noFault noFault _ _
      (by decide) (by decide) rfl⟩

/-- C7 counterexample: the distinct candidates `.png` and `.png.png` are
both processed in a completed run and share the single container name
`.png.imageset`, so distinct candidates do not always yield distinct
containers, and that container receives two file copies and two
descriptor writes. -/
theorem c7_distinct_containers_cex :
    (importIcons (some srcClash) noFault).summary.isSome = true
      ∧ (importIcons (some srcClash) noFault).containers.map Container.fileName
          = [dotPng, dotPngPng]
      ∧ dotPng ≠ dotPngPng
      ∧ (importIcons (some srcClash) noFault).containers.map Container.dirName
          = [dotPng ++ imagesetSuffix, dotPng ++ imagesetSuffix] := by
  exact ⟨by decide, by decide, by decide, by decide⟩

/-- C7 as amended: each processed candidate yields exactly one container
record (one copy, one descriptor write), and when the processed
candidates' splitext base names are pairwise distinct — which `.png`
alongside `.png.png` violates — distinct candidates yield distinct
containers and each container holds exactly one copied file and one
descriptor. -/
theorem c7_one_container_each (src : SourceDir) (fault : String → Bool)
    (hdone : (importIcons (some src) fault).summary.isSome = true)
    (hnodup : ((processedFiles src).map splitextBase).Nodup) :
    (importIcons (some src) fault).containers.map Container.fileName = processedFiles src
      ∧ ((importIcons (some src) fault).containers.map Container.dirName).Nodup
      ∧ (∀ c₁ ∈ (importIcons (some src) fault).containers,
          ∀ c₂ ∈ (importIcons (some src) fault).containers,
            c₁.dirName = c₂.dirName → c₁ = c₂)
      ∧ ∀ f ∈ processedFiles src,
          (importIcons (some src) fault).containers.countP (fun c => c.fileName == f) = 1 := by
  rw [importIcons_containers_of_done src fault hdone]
  have hmapdir :
      ((processedFiles src).map (procContainer src)).map Container.dirName
        = ((processedFiles src).map splitextBase).map (fun b => b ++ imagesetSuffix) := by
    rw [List.map_map, List.map_map]
    rfl
  have hinj : Function.Injective (fun b : String => b ++ imagesetSuffix) :=
    fun a b h => string_append_cancel_right h
  have hdir : (((processedFiles src).map (procContainer src)).map Container.dirName).Nodup := by
    rw [hmapdir]
    exact hnodup.map hinj
  refine ⟨map_fileName_procContainer src _, hdir, List.inj_on_of_nodup_map hdir, ?_⟩
  intro f hf
  rw [List.countP_map]
  show (processedFiles src).count f = 1
  exact List.count_eq_one_of_mem (List.Nodup.of_map splitextBase hnodup) hf

/-- Witness for C7 as amended at a concrete run with distinct bases. -/
theorem c7_one_container_each_witness :
    ((importIcons (some srcTwo) noFault).summary.isSome = true
        ∧ ((processedFiles srcTwo).map splitextBase).Nodup)
      ∧ (importIcons (some srcTwo) noFault).containers.map Container.fileName
          = processedFiles srcTwo
      ∧ ((importIcons (some srcTwo) noFault).containers.map Container.dirName).Nodup
      ∧ (∀ c₁ ∈ (importIcons (some srcTwo) noFault).containers,
          ∀ c₂ ∈ (importIcons (some srcTwo) noFault).containers,
            c₁.dirName = c₂.dirName → c₁ = c₂)
      ∧ ∀ f ∈ processedFiles srcTwo,
          (importIcons (some srcTwo) noFault).containers.countP (fun c => c.fileName == f)
            = 1 :=
  ⟨⟨by decide, by decide⟩, c7_one_container_each srcTwo noFault (by decide) (by decide)⟩

/-- C8: when every candidate before `f` processes successfully and the
copy or write of `f` raises (entry not a regular file, or an environment
fault), the run terminates immediately: the containers of the earlier
candidates remain exactly as written, no rollback happens, `f` completes
no container, no later candidate is processed, and no summary is
printed. -/
theorem c8_abort_keeps_earlier_containers (src : SourceDir) (fault : String → Bool)
    (pre : List String) (f : String) (post : List String)
    (hsplit : processedFiles src = pre ++ f :: post)
    (hpre : ∀ g ∈ pre, copyOk src fault g = true)
    (hf : copyOk src fault f = false) :
    importIcons (some src) fault
      = { destRootCreated := true
          containers := pre.map (procContainer src)
          summary := none } := by
  have habort := refLoop_aborted_of src fault pre f post [] hpre hf
  rw [List.nil_append] at habort
  rw [← hsplit] at habort
  exact importIcons_aborted src fault _ habort

/-- Witness for C8: a fault on the second of two candidates keeps exactly
the first candidate's container. -/
theorem c8_abort_keeps_earlier_containers_witness :
    (processedFiles srcTwo = [sportsPng] ++ musicPng :: []
        ∧ (∀ g ∈ [sportsPng], copyOk srcTwo faultMusic g = true)
        ∧ copyOk srcTwo faultMusic musicPng = false)
      ∧ importIcons (some srcTwo) faultMusic
          = { destRootCreated := true
              containers := [sportsPng].map (procContainer srcTwo)
              summary := none } :=
  ⟨⟨by decide, by decide, by decide⟩,
    c8_abort_keeps_earlier_containers srcTwo faultMusic [sportsPng] musicPng []
      (by decide) (by decide) (by decide)⟩

/-- C9: an entry named exactly `.png` passes the candidate filter,
`os.path.splitext` leaves its base name as `.png` itself, so it escapes
the `gaming` exclusion, and a completed run gives it a container named
`.png.imageset` holding a file named `.png`. -/
theorem c9_dot_png_entry :
    pyEndsWith dotPng pngExt = true
      ∧ splitextBase dotPng = dotPng
      ∧ splitextBase dotPng ≠ gamingName
      ∧ ∀ (src : SourceDir) (fault : String → Bool) (bs : List Nat),
          lookupEntry src dotPng = some (FSEntry.file bs)
          → (importIcons (some src) fault).summary.isSome = true
          → ∃ c ∈ (importIcons (some src) fault).containers,
              c.dirName = dotPngImageset ∧ c.fileName = dotPng ∧ c.fileBytes = bs := by
  refine ⟨by decide, by decide, by decide, ?_⟩
  intro src fault bs hl hdone
  rw [importIcons_containers_of_done src fault hdone]
  have hmem : dotPng ∈ processedFiles src :=
    mem_processedFiles hl (by decide) (by decide)
  refine ⟨procContainer src dotPng, List.mem_map.mpr ⟨dotPng, hmem, rfl⟩, ?_, rfl,
    procContainer_fileBytes hl⟩
  show splitextBase dotPng ++ imagesetSuffix = dotPngImageset
  decide

/-- Witness for C9 at a concrete run. -/
theorem c9_dot_png_entry_witness :
    ∃ c ∈ (importIcons (some src9) noFault).containers,
      c.dirName = dotPngImageset ∧ c.fileName = dotPng ∧ c.fileBytes = [7] :=
  c9_dot_png_entry.2.2.2 src9 noFault [7] (by decide) (by decide)

/-- C10 counterexample: a subdirectory named `gaming.png` passes the
filter and is counted in the summary-candidate list, yet the run completes
normally — the `gaming` exclusion skips it before the copy step, so no
unhandled error aborts the run. -/
theorem c10_subdirectory_cex :
    lookupEntry srcGamingDir gamingPng = some FSEntry.dir
      ∧ pyEndsWith gamingPng pngExt = true
      ∧ gamingPng ∈ candidateFiles srcGamingDir
      ∧ importIcons (some srcGamingDir) noFault
          = { destRootCreated := true, containers := [], summary := some (summaryMsg 1) } := by
  exact ⟨by decide, by decide, by decide, by decide⟩

/-- C10 as amended: candidate selection never checks that an entry is a
regular file; every subdirectory whose name ends in `.png` passes the
filter and is counted in the summary-candidate list, and whenever its base
name is not the excluded `gaming` the run cannot complete: the copy of a
directory raises and the run aborts with no summary. -/
theorem c10_no_isfile_check (src : SourceDir) (fault : String → Bool) (d : String)
    (hl : lookupEntry src d = some FSEntry.dir)
    (hp : pyEndsWith d pngExt = true)
    (hg : splitextBase d ≠ gamingName) :
    d ∈ candidateFiles src ∧ (importIcons (some src) fault).summary = none := by
  refine ⟨mem_candidateFiles hl hp, ?_⟩
  have hmem : d ∈ processedFiles src := mem_processedFiles hl hp hg
  cases hs : (importIcons (some src) fault).summary with
  | none => rfl
  | some msg =>
    have hall : ∀ g ∈ processedFiles src, copyOk src fault g = true :=
      (importIcons_summary_isSome src fault).mp (by rw [hs]; rfl)
    have hd := hall d hmem
    rw [copyOk_of_dir hl] at hd
    exact absurd hd (by simp)

/-- Witness for C10 as amended at a concrete run. -/
theorem c10_no_isfile_check_witness :
    subPng ∈ candidateFiles srcSubdir
      ∧ (importIcons (some srcSubdir) noFault).summary = none :=
  c10_no_isfile_check srcSubdir noFault subPng (by decide) (by decide) (by decide)

end ImportIcons
